import Mathlib

/-!
Verification development for the stock data dashboard backend
(`backend/data_prep.py`, `backend/db.py`, `backend/app.py`).

Modelling conventions:
* Prices, returns and averages are rationals (`ℚ`); the Python code uses
  floats, and every claim under study is an exact arithmetic identity, so the
  embedding works in exact arithmetic.  Square roots (volatility) live in `ℝ`.
* Dates are integer day numbers (`ℤ`).  Day arithmetic (`timedelta(days=n)`)
  is integer subtraction.  `datetime.weekday()` is modelled as `d % 7` with the
  epoch chosen so that residues `0..4` are Monday..Friday; since the theorems
  quantify over all `d : ℤ`, the choice of epoch is immaterial.
* A pandas column that may contain `NaN` is a list of `Option ℚ`
  (`none` = missing value); pandas rolling aggregations skip missing values
  and `min_periods` counts the non-missing observations in the window.
* The seeded numpy random generator of `generate_sample_data` is modelled by
  an explicit oracle record (`SampleRng`); range facts about `np.random.uniform`
  draws become hypotheses of the theorems that need them.
* The SQLite store is a list of rows; `ORDER BY date` is insertion sort on the
  date field.
-/

namespace StockDash

/-- Python `str.upper()` for the ASCII symbol strings this system uses.
(Extensionally `String.toUpper`; stated as a direct map over the character
list so that it evaluates by kernel reduction.) -/
def upper (s : String) : String := ⟨s.data.map Char.toUpper⟩

/-! ### Query-side data model (db.py, app.py) -/

/-- One persisted row of the `stock_data` table as read back by `db.py`. -/
structure StockRow where
  symbol : String
  date : ℤ
  open_ : ℚ
  high : ℚ
  low : ℚ
  close : ℚ
  volume : ℚ
  daily_return : ℚ
  ma_7 : ℚ
  high_52w : ℚ
  low_52w : ℚ
  volatility : ℚ
deriving DecidableEq

instance : Inhabited StockRow := ⟨⟨"", 0, 0, 0, 0, 0, 0, 0, 0, 0, 0, 0⟩⟩

/-- Ascending-by-date comparison used by `sort_values('date')`. -/
def dateLe (a b : StockRow) : Prop := a.date ≤ b.date

/-- Descending-by-date comparison used by `ORDER BY date DESC`. -/
def dateGe (a b : StockRow) : Prop := b.date ≤ a.date

instance : DecidableRel dateLe := fun a b => inferInstanceAs (Decidable (a.date ≤ b.date))

instance : DecidableRel dateGe := fun a b => inferInstanceAs (Decidable (b.date ≤ a.date))

instance : IsTotal StockRow dateLe := ⟨fun a b => le_total a.date b.date⟩

instance : IsTrans StockRow dateLe := ⟨fun _ _ _ h h2 => le_trans h h2⟩

instance : IsTotal StockRow dateGe := ⟨fun a b => le_total b.date a.date⟩

instance : IsTrans StockRow dateGe := ⟨fun _ _ _ h h2 => le_trans h2 h⟩

/-- `df.sort_values('date')` (ascending). -/
def sortAsc (l : List StockRow) : List StockRow := l.insertionSort dateLe

/-- `ORDER BY date DESC`. -/
def sortDesc (l : List StockRow) : List StockRow := l.insertionSort dateGe

/-- `db.get_symbol_data`: filter by upper-cased symbol, order descending by
date, apply `LIMIT` only when the Python `limit` argument is truthy
(`None` and `0` are both falsy), then re-sort ascending. -/
def get_symbol_data (store : List StockRow) (symbol : String) (limit : Option ℕ) :
    List StockRow :=
  let sym := upper symbol
  let rows := store.filter (fun r => decide (r.symbol = sym))
  let descending := sortDesc rows
  let limited :=
    match limit with
    | some n => if n ≠ 0 then descending.take n else descending
    | none => descending
  sortAsc limited

/-- Largest element of a list, `d` for the empty list (`Series.max()`). -/
def listMax {α : Type} [LinearOrder α] (d : α) : List α → α
  | [] => d
  | x :: xs => xs.foldl max x

/-- Smallest element of a list, `d` for the empty list (`Series.min()`). -/
def listMin {α : Type} [LinearOrder α] (d : α) : List α → α
  | [] => d
  | x :: xs => xs.foldl min x

/-- Result record of `db.get_symbol_summary`. -/
structure Summary where
  high_52w : ℚ
  low_52w : ℚ
  avg_close : ℚ
deriving DecidableEq

/-- `df.tail(252)`: the last `min 252 (length df)` rows. -/
def tail252 (df : List StockRow) : List StockRow := df.drop (df.length - 252)

/-- `db.get_symbol_summary`: whole ascending series, `tail(252)`, then
column max / min / mean; `none` models the empty dict for an absent symbol. -/
def get_symbol_summary (store : List StockRow) (symbol : String) : Option Summary :=
  let df := get_symbol_data store symbol none
  if df = [] then none
  else
    let last_year := tail252 df
    some
      { high_52w := listMax 0 (last_year.map (·.high)),
        low_52w := listMin 0 (last_year.map (·.low)),
        avg_close := (last_year.map (·.close)).sum / ((last_year.map (·.close)).length : ℚ) }

/-! ### The /compare endpoint (app.py) -/

inductive CompareError where
  | notFound (missing : List String)
  | insufficientData
deriving DecidableEq

/-- One element of the `data` array returned by `/compare`. -/
structure CompareRow where
  date : ℤ
  normalized1 : ℚ
  normalized2 : ℚ
deriving DecidableEq

instance : Inhabited CompareRow := ⟨⟨0, 0, 0⟩⟩

structure CompareResult where
  symbol1 : String
  symbol2 : String
  days : ℕ
  data : List CompareRow
deriving DecidableEq

/-- Python `round(x, 2)`.  (Python rounds ties to even; the embedding rounds
ties up.  No theorem below evaluates `round` at a tie.) -/
def round2 (q : ℚ) : ℚ := ((round (q * 100) : ℤ) : ℚ) / 100

/-- `db.get_symbol_data(s, limit=days*2)` as called by `/compare`. -/
def fetchedSeries (store : List StockRow) (s : String) (days : ℕ) : List StockRow :=
  get_symbol_data store s (some (days * 2))

/-- `df['date'].max()` (the series handed to it is never empty in `compare`). -/
def maxDate (l : List StockRow) : ℤ := listMax 0 (l.map (·.date))

/-- `latest_common_date = min(df1['date'].max(), df2['date'].max())`. -/
def commonEnd (df1 df2 : List StockRow) : ℤ := min (maxDate df1) (maxDate df2)

/-- `df[df['date'] >= latest_common_date - timedelta(days=days)].sort_values('date')`. -/
def restrictWindow (df : List StockRow) (c : ℤ) (days : ℕ) : List StockRow :=
  sortAsc (df.filter (fun r => decide (c - (days : ℤ) ≤ r.date)))

/-- `(df['close'] / df['close'].iloc[0]) * 100` evaluated at position `i`. -/
def normalizedAt (df : List StockRow) (i : ℕ) : ℚ :=
  (df.getD i default).close / (df.getD 0 default).close * 100

/-- The positional pairing loop of `/compare`: one output row per index below
`min(len(df1), len(df2))`, dates taken from the first symbol's window. -/
def compareData (r1 r2 : List StockRow) : List CompareRow :=
  (List.range (min r1.length r2.length)).map fun idx =>
    { date := (r1.getD idx default).date,
      normalized1 := round2 (normalizedAt r1 idx),
      normalized2 := round2 (normalizedAt r2 idx) }

/-- The `/compare` endpoint of `app.py`. -/
def compare (store : List StockRow) (symbol1 symbol2 : String) (days : ℕ) :
    Except CompareError CompareResult :=
  let s1 := upper symbol1
  let s2 := upper symbol2
  if fetchedSeries store s1 days = [] ∨ fetchedSeries store s2 days = [] then
    .error (.notFound
      ((if fetchedSeries store s1 days = [] then [s1] else []) ++
       (if fetchedSeries store s2 days = [] then [s2] else [])))
  else
    if restrictWindow (fetchedSeries store s1 days)
          (commonEnd (fetchedSeries store s1 days) (fetchedSeries store s2 days)) days = [] ∨
        restrictWindow (fetchedSeries store s2 days)
          (commonEnd (fetchedSeries store s1 days) (fetchedSeries store s2 days)) days = [] then
      .error .insufficientData
    else
      .ok
        { symbol1 := s1, symbol2 := s2, days := days,
          data := compareData
            (restrictWindow (fetchedSeries store s1 days)
              (commonEnd (fetchedSeries store s1 days) (fetchedSeries store s2 days)) days)
            (restrictWindow (fetchedSeries store s2 days)
              (commonEnd (fetchedSeries store s1 days) (fetchedSeries store s2 days)) days) }

/-! ### Write-side data model (data_prep.py)

A raw bar as returned by the upstream provider; any price column may be
missing (`none` models pandas `NaN`). -/

structure RawBar where
  date : ℤ
  open_ : Option ℚ
  high : Option ℚ
  low : Option ℚ
  close : Option ℚ
  volume : Option ℚ
deriving DecidableEq

instance : Inhabited RawBar := ⟨⟨0, none, none, none, none, none⟩⟩

/-- A row of the frame persisted by `fetch_save` after metric derivation.
The persisted volatility is `std * sqrt(252)`, an irrational real; to keep the
embedding executable the row carries `volatility_sq`, its exact square
`variance * 252` as a rational.  The map `x ↦ sqrt x` recovers the persisted
value (it is injective on the nonnegative rationals, and both the variance and
252 are nonnegative), so nothing is lost. -/
structure PrepRow where
  symbol : String
  date : ℤ
  open_ : Option ℚ
  high : Option ℚ
  low : Option ℚ
  close : Option ℚ
  volume : Option ℚ
  daily_return : Option ℚ
  ma_7 : Option ℚ
  high_52w : Option ℚ
  low_52w : Option ℚ
  volatility_sq : Option ℚ
deriving DecidableEq

instance : Inhabited PrepRow :=
  ⟨⟨"", 0, none, none, none, none, none, none, none, none, none, none⟩⟩

/-- The trailing positional window of width `w` ending at index `i`
(`rolling(window=w)` at row `i`): the last `min w (i+1)` entries of
`xs.take (i+1)`. -/
def window (xs : List (Option ℚ)) (i w : ℕ) : List (Option ℚ) :=
  (xs.take (i + 1)).drop (i + 1 - w)

/-- The non-missing observations of a window (pandas skips `NaN`). -/
def obs (xs : List (Option ℚ)) : List ℚ := xs.filterMap id

/-- `rolling(w, min_periods=1).mean()` at row `i`: mean of the non-missing
observations, `NaN` when there are none. -/
def rollingMean (xs : List (Option ℚ)) (i w : ℕ) : Option ℚ :=
  let vals := obs (window xs i w)
  if vals = [] then none else some (vals.sum / (vals.length : ℚ))

/-- `rolling(w, min_periods=1).max()` at row `i`. -/
def rollingMax (xs : List (Option ℚ)) (i w : ℕ) : Option ℚ :=
  let vals := obs (window xs i w)
  if vals = [] then none else some (listMax 0 vals)

/-- `rolling(w, min_periods=1).min()` at row `i`. -/
def rollingMin (xs : List (Option ℚ)) (i w : ℕ) : Option ℚ :=
  let vals := obs (window xs i w)
  if vals = [] then none else some (listMin 0 vals)

/-- Sample variance with `ddof = 1`, the pandas default for `Series.std`. -/
def sampleVar (vals : List ℚ) : ℚ :=
  let n : ℚ := (vals.length : ℚ)
  let m := vals.sum / n
  (vals.map (fun x => (x - m) ^ 2)).sum / (n - 1)

/-- `rolling(w, min_periods=1).std()` at row `i`, returned as the variance:
pandas yields `NaN` unless the window holds at least two non-missing
observations (`ddof = 1`). -/
def rollingVar (xs : List (Option ℚ)) (i w : ℕ) : Option ℚ :=
  let vals := obs (window xs i w)
  if 2 ≤ vals.length then some (sampleVar vals) else none

/-- `(df['close'] - df['open']) / df['open']` with `NaN` propagation. -/
def dailyReturns (opens closes : List (Option ℚ)) : List (Option ℚ) :=
  List.zipWith
    (fun c o =>
      match c, o with
      | some cv, some ov => some ((cv - ov) / ov)
      | _, _ => none)
    closes opens

/-- Forward fill carrying the last non-missing value seen so far. -/
def ffillGo (last : Option ℚ) : List (Option ℚ) → List (Option ℚ)
  | [] => []
  | x :: xs =>
    match x with
    | some v => some v :: ffillGo (some v) xs
    | none => last :: ffillGo last xs

/-- `fillna(method='ffill')`. -/
def ffill (xs : List (Option ℚ)) : List (Option ℚ) := ffillGo none xs

/-- `fillna(method='bfill')`. -/
def bfill (xs : List (Option ℚ)) : List (Option ℚ) := (ffillGo none xs.reverse).reverse

/-- The metric-derivation block of `fetch_save` (data_prep.py lines 139-160),
in the source's order: `daily_return`, `ma_7` and the 252-day extremes are
computed from the *unfilled* raw columns, then the five raw columns are
forward/backward filled, and only then is `volatility` computed (from the
`daily_return` column that predates the fill).  The symbol column is the
upper-cased symbol. -/
def computeMetrics (symbol : String) (bars : List RawBar) : List PrepRow :=
  let opens := bars.map (·.open_)
  let highs := bars.map (·.high)
  let lows := bars.map (·.low)
  let closes := bars.map (·.close)
  let volumes := bars.map (·.volume)
  let drs := dailyReturns opens closes
  let fopens := bfill (ffill opens)
  let fhighs := bfill (ffill highs)
  let flows := bfill (ffill lows)
  let fcloses := bfill (ffill closes)
  let fvolumes := bfill (ffill volumes)
  (List.range bars.length).map fun i =>
    { symbol := upper symbol,
      date := (bars.getD i default).date,
      open_ := fopens.getD i none,
      high := fhighs.getD i none,
      low := flows.getD i none,
      close := fcloses.getD i none,
      volume := fvolumes.getD i none,
      daily_return := drs.getD i none,
      ma_7 := rollingMean closes i 7,
      high_52w := rollingMax highs i 252,
      low_52w := rollingMin lows i 252,
      volatility_sq := (rollingVar drs i 30).map fun v => v * 252 }

/-- Reference pipeline in the order the specification requires (§4.2, §9):
the raw columns are forward/backward filled first and every derived metric is
then computed from the filled columns.  Used only to compare with
`computeMetrics`, which follows the source's order. -/
def computeMetricsFillFirst (symbol : String) (bars : List RawBar) : List PrepRow :=
  let fopens := bfill (ffill (bars.map (·.open_)))
  let fhighs := bfill (ffill (bars.map (·.high)))
  let flows := bfill (ffill (bars.map (·.low)))
  let fcloses := bfill (ffill (bars.map (·.close)))
  let fvolumes := bfill (ffill (bars.map (·.volume)))
  let drs := dailyReturns fopens fcloses
  (List.range bars.length).map fun i =>
    { symbol := upper symbol,
      date := (bars.getD i default).date,
      open_ := fopens.getD i none,
      high := fhighs.getD i none,
      low := flows.getD i none,
      close := fcloses.getD i none,
      volume := fvolumes.getD i none,
      daily_return := drs.getD i none,
      ma_7 := rollingMean fcloses i 7,
      high_52w := rollingMax fhighs i 252,
      low_52w := rollingMin flows i 252,
      volatility_sq := (rollingVar drs i 30).map fun v => v * 252 }

/-! ### Retry loop of fetch_save (data_prep.py lines 91-113) -/

/-- What one upstream attempt produces: an exception, or a (possibly empty)
bar frame. -/
inductive AttemptOutcome where
  | err
  | result (bars : List RawBar)
deriving DecidableEq

def max_retries : ℕ := 3

/-- The retry loop body.  `o k` is the outcome of attempt `k`; `df` is the
Python `df` variable (`none` until first assigned).  Returns the final `df`
together with the chronological list of back-off sleeps (in seconds):
`time.sleep` is reached only in the `except` branch, and only when the failed
attempt is not the last one. -/
def fetchRetryGo (o : ℕ → AttemptOutcome) :
    ℕ → ℕ → Option (List RawBar) → Option (List RawBar) × List ℕ
  | 0, _, df => (df, [])
  | fuel + 1, k, df =>
    match o k with
    | .result bs => if bs = [] then fetchRetryGo o fuel (k + 1) (some bs) else (some bs, [])
    | .err =>
      if k < max_retries - 1 then
        let r := fetchRetryGo o fuel (k + 1) df
        (r.1, (k + 1) * 2 :: r.2)
      else fetchRetryGo o fuel (k + 1) df

/-- The whole retry loop: up to `max_retries` attempts starting from
attempt 0 with `df = None`. -/
def fetchRetry (o : ℕ → AttemptOutcome) : Option (List RawBar) × List ℕ :=
  fetchRetryGo o max_retries 0 none

/-- The retry loop unrolled, stated the way the corrected claim reads: at most
three attempts; a non-empty frame stops immediately; an empty frame moves to
the next attempt with no sleep; an exception sleeps `(k+1)*2` seconds unless
it was the last attempt. -/
def fetchRetrySpec (o : ℕ → AttemptOutcome) : Option (List RawBar) × List ℕ :=
  match o 0 with
  | .result b0 =>
    if b0 = [] then
      match o 1 with
      | .result b1 =>
        if b1 = [] then
          match o 2 with
          | .result b2 => (some b2, [])
          | .err => (some b1, [])
        else (some b1, [])
      | .err =>
        match o 2 with
        | .result b2 => (some b2, [4])
        | .err => (some b0, [4])
    else (some b0, [])
  | .err =>
    match o 1 with
    | .result b1 =>
      if b1 = [] then
        match o 2 with
        | .result b2 => (some b2, [2])
        | .err => (some b1, [2])
      else (some b1, [2])
    | .err =>
      match o 2 with
      | .result b2 => (some b2, [2, 4])
      | .err => (none, [2, 4])

/-! ### Synthetic fallback generator (data_prep.py lines 23-80) -/

/-- One synthetic bar produced by `generate_sample_data`. -/
structure SampleBar where
  date : ℤ
  open_ : ℚ
  high : ℚ
  low : ℚ
  close : ℚ
  volume : ℚ
deriving DecidableEq

instance : Inhabited SampleBar := ⟨⟨0, 0, 0, 0, 0, 0⟩⟩

/-- Oracle for the seeded numpy generator used by `generate_sample_data`
(`np.random.seed(hash(symbol) % 1000)` makes every draw a deterministic
function of the symbol; the oracles stand for those draws).
`change i` is `trend + volatility` at step `i`; `jOpen/jHigh/jLow i` are the
per-row `np.random.uniform` draws for the open/high/low columns; `jHigh2` and
`jLow2` are the single scalar draws applied to the whole high/low columns. -/
structure SampleRng where
  change : ℕ → ℚ
  jOpen : ℕ → ℚ
  jHigh : ℕ → ℚ
  jLow : ℕ → ℚ
  volumeDraw : ℕ → ℚ
  jHigh2 : ℚ
  jLow2 : ℚ

/-- The base-price dictionary lookup (`base_prices.get(symbol.upper(), 1500)`). -/
def base_prices (symbol : String) : ℚ :=
  if symbol = "INFY.NS" then 1500
  else if symbol = "TCS.NS" then 3500
  else if symbol = "RELIANCE.NS" then 2500
  else if symbol = "HDFCBANK.NS" then 1700
  else if symbol = "ICICIBANK.NS" then 1000
  else 1500

/-- The date-collection loop: starting at `cur`, walk forward one calendar day
at a time while fewer than `need` dates are collected and the day is at most
`end_date`; keep weekdays (`weekday() < 5`, i.e. `d % 7 < 5`).  `fuel` is the
number of candidate days left (`end_date - cur + 1` at entry). -/
def collectWeekdays : ℤ → ℕ → ℕ → List ℤ
  | _, 0, _ => []
  | cur, fuel + 1, need =>
    if need = 0 then []
    else if cur % 7 < 5 then cur :: collectWeekdays (cur + 1) fuel (need - 1)
    else collectWeekdays (cur + 1) fuel need

/-- Number of weekdays among the `fuel` consecutive days starting at `cur`
(specification device for reasoning about `collectWeekdays`). -/
def countW (cur : ℤ) : ℕ → ℕ
  | 0 => 0
  | f + 1 => (if cur % 7 < 5 then 1 else 0) + countW (cur + 1) f

/-- The price path: `current_price = max(100, current_price + change)` starting
from the symbol's base price; `price i` is the value appended at step `i`. -/
def priceAt (base : ℚ) (change : ℕ → ℚ) : ℕ → ℚ
  | 0 => max 100 (base + change 0)
  | i + 1 => max 100 (priceAt base change i + change (i + 1))

/-- `generate_sample_data(symbol, days)` with `now` the integer day of
`datetime.now()` and `rng` the seeded-generator oracle.  Dates are collected
from `now - 2*days` (so `2*days + 1` candidate days), then the last `days` are
kept; open/high/low start as jittered copies of the close and the high/low
columns are then forced to the row-wise extremum of open/high/close
(resp. open/low/close) times one more column-wide jitter. -/
def generate_sample_data (symbol : String) (days : ℕ) (now : ℤ) (rng : SampleRng) :
    List SampleBar :=
  let base := base_prices (upper symbol)
  let ds := collectWeekdays (now - 2 * (days : ℤ)) (2 * days + 1) days
  let dates := ds.drop (ds.length - days)
  (List.range days).map fun i =>
    let p := priceAt base rng.change i
    let o := p * (1 + rng.jOpen i)
    let h0 := p * (1 + rng.jHigh i)
    let l0 := p * (1 - rng.jLow i)
    { date := dates.getD i 0,
      open_ := o,
      high := (max (max o h0) p) * (1 + rng.jHigh2),
      low := (min (min o l0) p) * (1 - rng.jLow2),
      close := p,
      volume := rng.volumeDraw i }

/-! ### fetch_save (data_prep.py lines 82-171) -/

/-- The spec's name (§7) for the error `fetch_save` raises when every attempt
failed and the fallback is disabled (`ValueError` in the source). -/
inductive FetchError where
  | DataUnavailable
deriving DecidableEq

/-- `period` to synthetic-series length: 500 for "2y", 365 for "1y", else 250. -/
def periodDays (period : String) : ℕ :=
  if period = "2y" then 500 else if period = "1y" then 365 else 250

/-- A synthetic bar is complete: every raw column is present. -/
def toRawBar (b : SampleBar) : RawBar :=
  ⟨b.date, some b.open_, some b.high, some b.low, some b.close, some b.volume⟩

/-- `fetch_save`: run the retry loop; if the final frame is `None` or empty,
either synthesize fallback data (when `use_sample_if_fails`) or fail with
`DataUnavailable`; then derive metrics.  The persistence append itself keeps
the rows unchanged, so the result is the list of persisted rows. -/
def fetch_save (symbol period : String) (use_sample_if_fails : Bool)
    (o : ℕ → AttemptOutcome) (now : ℤ) (rng : SampleRng) :
    Except FetchError (List PrepRow) :=
  let fallback : Except FetchError (List RawBar) :=
    if use_sample_if_fails then
      .ok ((generate_sample_data symbol (periodDays period) now rng).map toRawBar)
    else .error .DataUnavailable
  let bars :=
    match (fetchRetry o).1 with
    | some bs => if bs = [] then fallback else .ok bs
    | none => fallback
  bars.map (computeMetrics symbol)

/-! ### Concrete inputs used by witnesses and scenario theorems -/

/-- Store used to exercise `C10_symbol_case_insensitive` at a concrete input. -/
def storeCase : List StockRow := [⟨"ABC", 0, 1, 2, 1, 1, 1000, 0, 1, 2, 1, 0⟩]

/-- One row of the Scenario B store (claim C7): `252 - i` is both the close
and (plus one) the high; dates descend with `i` so the storage order is the
SQL descending order. -/
def scRow (i : ℕ) : StockRow :=
  { symbol := "TEST", date := 251 - (i : ℤ),
    open_ := ((252 - i : ℕ) : ℚ), high := ((253 - i : ℕ) : ℚ), low := 1,
    close := ((252 - i : ℕ) : ℚ), volume := 1000,
    daily_return := 0, ma_7 := 0, high_52w := 0, low_52w := 0, volatility := 0 }

/-- Scenario B store (claim C7): exactly 252 rows for symbol TEST with closes
1..252. -/
def scenarioStore : List StockRow := (List.range 252).map scRow

/-- Scenario C store (claim C3).  Day numbers count from 2024-01-01 as day 0,
so 2024-05-30 is day 150 and 2024-06-01 is day 152: symbol A has rows through
2024-06-01 (150, 151, 152), symbol B through 2024-05-30 (148, 149, 150).  All
closes are 100. -/
def storeC : List StockRow :=
  [⟨"A", 150, 100, 101, 99, 100, 1000, 0, 0, 0, 0, 0⟩,
   ⟨"A", 151, 100, 101, 99, 100, 1000, 0, 0, 0, 0, 0⟩,
   ⟨"A", 152, 100, 101, 99, 100, 1000, 0, 0, 0, 0, 0⟩,
   ⟨"B", 148, 100, 101, 99, 100, 1000, 0, 0, 0, 0, 0⟩,
   ⟨"B", 149, 100, 101, 99, 100, 1000, 0, 0, 0, 0, 0⟩,
   ⟨"B", 150, 100, 101, 99, 100, 1000, 0, 0, 0, 0, 0⟩]

/-- The comparison result for Scenario C, used by the C3 and C4 witnesses. -/
def resC : CompareResult :=
  { symbol1 := upper "A", symbol2 := upper "B", days := 30,
    data := compareData
      (restrictWindow (fetchedSeries storeC (upper "A") 30)
        (commonEnd (fetchedSeries storeC (upper "A") 30)
          (fetchedSeries storeC (upper "B") 30)) 30)
      (restrictWindow (fetchedSeries storeC (upper "B") 30)
        (commonEnd (fetchedSeries storeC (upper "A") 30)
          (fetchedSeries storeC (upper "B") 30)) 30) }

/-- Upstream outcome stream in which every attempt raises (network failure). -/
def oErr : ℕ → AttemptOutcome := fun _ => .err

/-- A concrete generator oracle (all draws zero). -/
def rng0 : SampleRng :=
  { change := fun _ => 0, jOpen := fun _ => 0, jHigh := fun _ => 0, jLow := fun _ => 0,
    volumeDraw := fun _ => 0, jHigh2 := 0, jLow2 := 0 }

/-- A single complete bar (claim C1 counterexample input). -/
def barsOne : List RawBar := [⟨0, some 10, some 12, some 9, some 11, some 1000⟩]

/-- Two complete bars (claim C1 witness input). -/
def barsTwo : List RawBar :=
  [⟨0, some 10, some 12, some 9, some 11, some 1000⟩,
   ⟨1, some 10, some 13, some 9, some 12, some 1000⟩]

/-- Three bars with the middle close missing (claim C2 failing input): the
raw close column is `[10, NaN, 20]`. -/
def barsGap : List RawBar :=
  [⟨0, some 10, some 12, some 9, some 10, some 1000⟩,
   ⟨1, some 10, some 12, some 9, none, some 1000⟩,
   ⟨2, some 10, some 22, some 9, some 20, some 1000⟩]

/-! ### Basic lemmas -/

lemma le_foldl_max {α : Type} [LinearOrder α] (l : List α) (a : α) :
    a ≤ l.foldl max a ∧ ∀ x ∈ l, x ≤ l.foldl max a := by
  induction l generalizing a with
  | nil => simp
  | cons y ys ih =>
    refine ⟨le_trans (le_max_left a y) (ih (max a y)).1, ?_⟩
    intro x hx
    rcases List.mem_cons.mp hx with rfl | hx
    · exact le_trans (le_max_right a x) (ih (max a x)).1
    · exact (ih (max a y)).2 x hx

lemma foldl_max_mem {α : Type} [LinearOrder α] (l : List α) (a : α) :
    l.foldl max a = a ∨ l.foldl max a ∈ l := by
  induction l generalizing a with
  | nil => left; rfl
  | cons y ys ih =>
    rw [List.foldl_cons]
    rcases ih (max a y) with h | h
    · rcases max_choice a y with hm | hm
      · left; rw [h, hm]
      · right; rw [h, hm]; exact List.mem_cons_self y ys
    · right; exact List.mem_cons_of_mem y h

lemma le_listMax {α : Type} [LinearOrder α] {l : List α} {x : α} (d : α) (hx : x ∈ l) :
    x ≤ listMax d l := by
  cases l with
  | nil => cases hx
  | cons y ys =>
    rcases List.mem_cons.mp hx with rfl | hx
    · exact (le_foldl_max ys x).1
    · exact (le_foldl_max ys y).2 x hx

lemma listMax_mem {α : Type} [LinearOrder α] {l : List α} (d : α) (hl : l ≠ []) :
    listMax d l ∈ l := by
  cases l with
  | nil => exact absurd rfl hl
  | cons y ys =>
    rcases foldl_max_mem ys y with h | h
    · rw [listMax, h]; exact List.mem_cons_self y ys
    · exact List.mem_cons_of_mem y h

lemma le_foldl_min {α : Type} [LinearOrder α] (l : List α) (a : α) :
    l.foldl min a ≤ a ∧ ∀ x ∈ l, l.foldl min a ≤ x := by
  induction l generalizing a with
  | nil => simp
  | cons y ys ih =>
    refine ⟨le_trans (ih (min a y)).1 (min_le_left a y), ?_⟩
    intro x hx
    rcases List.mem_cons.mp hx with rfl | hx
    · exact le_trans (ih (min a x)).1 (min_le_right a x)
    · exact (ih (min a y)).2 x hx

lemma foldl_min_mem {α : Type} [LinearOrder α] (l : List α) (a : α) :
    l.foldl min a = a ∨ l.foldl min a ∈ l := by
  induction l generalizing a with
  | nil => left; rfl
  | cons y ys ih =>
    rw [List.foldl_cons]
    rcases ih (min a y) with h | h
    · rcases min_choice a y with hm | hm
      · left; rw [h, hm]
      · right; rw [h, hm]; exact List.mem_cons_self y ys
    · right; exact List.mem_cons_of_mem y h

lemma listMin_le {α : Type} [LinearOrder α] {l : List α} {x : α} (d : α) (hx : x ∈ l) :
    listMin d l ≤ x := by
  cases l with
  | nil => cases hx
  | cons y ys =>
    rcases List.mem_cons.mp hx with rfl | hx
    · exact (le_foldl_min ys x).1
    · exact (le_foldl_min ys y).2 x hx

lemma listMin_mem {α : Type} [LinearOrder α] {l : List α} (d : α) (hl : l ≠ []) :
    listMin d l ∈ l := by
  cases l with
  | nil => exact absurd rfl hl
  | cons y ys =>
    rcases foldl_min_mem ys y with h | h
    · rw [listMin, h]; exact List.mem_cons_self y ys
    · exact List.mem_cons_of_mem y h

/-! ### Sorting lemmas -/

lemma sortAsc_perm (l : List StockRow) : (sortAsc l).Perm l :=
  List.perm_insertionSort dateLe l

lemma sortDesc_perm (l : List StockRow) : (sortDesc l).Perm l :=
  List.perm_insertionSort dateGe l

lemma mem_sortAsc {l : List StockRow} {x : StockRow} : x ∈ sortAsc l ↔ x ∈ l :=
  List.mem_insertionSort dateLe

lemma sorted_sortAsc (l : List StockRow) : List.Sorted dateLe (sortAsc l) :=
  List.sorted_insertionSort dateLe l

lemma length_sortAsc (l : List StockRow) : (sortAsc l).length = l.length :=
  List.length_insertionSort dateLe l

lemma length_sortDesc (l : List StockRow) : (sortDesc l).length = l.length :=
  List.length_insertionSort dateGe l

/-- Inserting an element that is strictly larger (by date) than every element
of a list appends it at the end. -/
lemma orderedInsert_of_forall_not {a : StockRow} :
    ∀ {l : List StockRow}, (∀ b ∈ l, ¬ dateLe a b) →
      l.orderedInsert dateLe a = l ++ [a]
  | [], _ => rfl
  | b :: t, h => by
    rw [List.orderedInsert]
    rw [if_neg (h b (List.mem_cons_self b t))]
    rw [orderedInsert_of_forall_not fun x hx => h x (List.mem_cons_of_mem b hx)]
    rfl

/-- Sorting a strictly descending list ascending reverses it. -/
lemma sortAsc_of_strict_desc :
    ∀ {l : List StockRow}, l.Pairwise (fun a b => b.date < a.date) →
      sortAsc l = l.reverse
  | [], _ => rfl
  | a :: t, h => by
    have ht := List.pairwise_cons.mp h
    show (sortAsc t).orderedInsert dateLe a = (a :: t).reverse
    rw [sortAsc_of_strict_desc ht.2]
    rw [orderedInsert_of_forall_not ?hlt]
    · rw [List.reverse_cons]
    · intro b hb
      have : b ∈ t := List.mem_reverse.mp hb
      exact not_le_of_lt (ht.1 b this)

/-- A list sorted descending is fixed by `sortDesc`. -/
lemma sortDesc_of_sorted {l : List StockRow} (h : List.Sorted dateGe l) :
    sortDesc l = l :=
  List.Sorted.insertionSort_eq h

/-! ### Retrieval lemmas -/

lemma mem_get_symbol_data {store : List StockRow} {sym : String} {lim : Option ℕ}
    {r : StockRow} (h : r ∈ get_symbol_data store sym lim) : r ∈ store := by
  unfold get_symbol_data at h
  have h1 := mem_sortAsc.mp h
  have h2 : r ∈ sortDesc (store.filter (fun x => decide (x.symbol = upper sym))) := by
    rcases lim with _ | n
    · exact h1
    · have h1' : r ∈ if n ≠ 0 then
          List.take n (sortDesc (store.filter (fun x => decide (x.symbol = upper sym))))
        else sortDesc (store.filter (fun x => decide (x.symbol = upper sym))) := h1
      by_cases hn : n ≠ 0
      · rw [if_pos hn] at h1'
        exact List.mem_of_mem_take h1'
      · rw [if_neg hn] at h1'
        exact h1'
  exact List.mem_of_mem_filter ((sortDesc_perm _).mem_iff.mp h2)

lemma get_symbol_data_none_perm (store : List StockRow) (sym : String) :
    (get_symbol_data store sym none).Perm
      (store.filter (fun r => decide (r.symbol = upper sym))) := by
  unfold get_symbol_data
  exact (sortAsc_perm _).trans (sortDesc_perm _)

/-! ### Comparison lemmas -/

lemma mem_restrictWindow {df : List StockRow} {c : ℤ} {days : ℕ} {r : StockRow} :
    r ∈ restrictWindow df c days ↔ r ∈ df ∧ c - (days : ℤ) ≤ r.date := by
  unfold restrictWindow
  rw [mem_sortAsc, List.mem_filter, decide_eq_true_eq]

lemma sorted_restrictWindow (df : List StockRow) (c : ℤ) (days : ℕ) :
    List.Sorted dateLe (restrictWindow df c days) :=
  sorted_sortAsc _

lemma getD_range_map {β : Type} [Inhabited β] (f : ℕ → β) {n i : ℕ} (h : i < n) :
    ((List.range n).map f).getD i default = f i := by
  rw [List.getD_eq_getElem?_getD, List.getElem?_map, List.getElem?_range h]
  rfl

lemma compareData_length (r1 r2 : List StockRow) :
    (compareData r1 r2).length = min r1.length r2.length := by
  simp [compareData]

lemma compareData_getD (r1 r2 : List StockRow) {i : ℕ} (h : i < min r1.length r2.length) :
    (compareData r1 r2).getD i default =
      ⟨(r1.getD i default).date, round2 (normalizedAt r1 i), round2 (normalizedAt r2 i)⟩ :=
  getD_range_map _ h

/-- Inversion of a successful `/compare` call: both fetched series and both
restricted windows are nonempty, and the result is the positional pairing of
the two restricted windows. -/
lemma compare_ok {store : List StockRow} {s1 s2 : String} {days : ℕ} {res : CompareResult}
    (h : compare store s1 s2 days = .ok res) :
    fetchedSeries store (upper s1) days ≠ []
    ∧ fetchedSeries store (upper s2) days ≠ []
    ∧ restrictWindow (fetchedSeries store (upper s1) days)
        (commonEnd (fetchedSeries store (upper s1) days)
          (fetchedSeries store (upper s2) days)) days ≠ []
    ∧ restrictWindow (fetchedSeries store (upper s2) days)
        (commonEnd (fetchedSeries store (upper s1) days)
          (fetchedSeries store (upper s2) days)) days ≠ []
    ∧ res = ⟨upper s1, upper s2, days,
        compareData
          (restrictWindow (fetchedSeries store (upper s1) days)
            (commonEnd (fetchedSeries store (upper s1) days)
              (fetchedSeries store (upper s2) days)) days)
          (restrictWindow (fetchedSeries store (upper s2) days)
            (commonEnd (fetchedSeries store (upper s1) days)
              (fetchedSeries store (upper s2) days)) days)⟩ := by
  unfold compare at h
  dsimp only at h
  split_ifs at h with h1 h2
  push_neg at h1 h2
  injection h with h3
  exact ⟨h1.1, h1.2, h2.1, h2.2, h3.symm⟩

/-- The positional pairing of two nonempty windows starts with the pair of
index-0 normalized values. -/
lemma compareData_cons {r1 r2 : List StockRow} (h1 : r1 ≠ []) (h2 : r2 ≠ []) :
    compareData r1 r2 =
      { date := (r1.getD 0 default).date,
        normalized1 := round2 (normalizedAt r1 0),
        normalized2 := round2 (normalizedAt r2 0) } ::
        ((List.range (min r1.length r2.length - 1)).map fun idx =>
          { date := (r1.getD (idx + 1) default).date,
            normalized1 := round2 (normalizedAt r1 (idx + 1)),
            normalized2 := round2 (normalizedAt r2 (idx + 1)) }) := by
  unfold compareData
  have hmin : min r1.length r2.length = (min r1.length r2.length - 1) + 1 := by
    have hp1 := List.length_pos.mpr h1
    have hp2 := List.length_pos.mpr h2
    omega
  rw [hmin, List.range_succ_eq_map, List.map_cons, List.map_map]
  rfl

lemma getD_zero_mem {l : List StockRow} (h : l ≠ []) : l.getD 0 default ∈ l := by
  cases l with
  | nil => exact absurd rfl h
  | cons a t => exact List.mem_cons_self a t

lemma round2_100 : round2 100 = 100 := by
  unfold round2
  norm_num

/-! ### Sums over ranges -/

lemma list_range_map_sum (f : ℕ → ℚ) : ∀ n, ((List.range n).map f).sum = ∑ i ∈ Finset.range n, f i
  | 0 => by simp
  | n + 1 => by
    rw [List.range_succ, List.map_append, List.sum_append, Finset.sum_range_succ,
      list_range_map_sum f n]
    simp

/-! ### Scenario B store lemmas -/

lemma scenarioStore_filter :
    scenarioStore.filter (fun r => decide (r.symbol = upper "TEST")) = scenarioStore := by
  have hup : upper "TEST" = "TEST" := by decide
  rw [hup]
  refine List.filter_eq_self.mpr ?_
  intro r hr
  obtain ⟨i, _, rfl⟩ := List.mem_map.mp hr
  simp [scRow]

lemma scenarioStore_sorted_desc : List.Sorted dateGe scenarioStore :=
  List.pairwise_map.mpr
    ((List.pairwise_lt_range 252).imp fun {i j} h => by
      show (251 : ℤ) - j ≤ 251 - i
      omega)

lemma scenarioStore_strict_desc : scenarioStore.Pairwise fun a b => b.date < a.date :=
  List.pairwise_map.mpr
    ((List.pairwise_lt_range 252).imp fun {i j} h => by
      show (251 : ℤ) - j < 251 - i
      omega)

lemma scenarioStore_length : scenarioStore.length = 252 := by
  simp [scenarioStore]

lemma scenarioStore_gsd :
    get_symbol_data scenarioStore "TEST" none = scenarioStore.reverse := by
  unfold get_symbol_data
  show sortAsc (sortDesc (scenarioStore.filter _)) = _
  rw [scenarioStore_filter, sortDesc_of_sorted scenarioStore_sorted_desc,
    sortAsc_of_strict_desc scenarioStore_strict_desc]

lemma scenarioStore_close_sum : (scenarioStore.map (·.close)).sum = 31878 := by
  have hmap : scenarioStore.map (·.close) =
      (List.range 252).map fun i => ((252 - i : ℕ) : ℚ) := by
    rw [scenarioStore, List.map_map]
    rfl
  rw [hmap, list_range_map_sum]
  have hcast : (∑ i ∈ Finset.range 252, ((252 - i : ℕ) : ℚ)) =
      ((∑ i ∈ Finset.range 252, (252 - i) : ℕ) : ℚ) := by
    rw [Nat.cast_sum]
  have hN : (∑ i ∈ Finset.range 252, (252 - i)) = 31878 := by
    have h1 : ∀ i ∈ Finset.range 252, 252 - i = (fun k => k + 1) (252 - 1 - i) := by
      intro i hi
      have := Finset.mem_range.mp hi
      simp only []
      omega
    rw [Finset.sum_congr rfl h1, Finset.sum_range_reflect (fun k => k + 1) 252]
    rw [Finset.sum_add_distrib, Finset.sum_const, Finset.card_range, smul_eq_mul]
    have h2 := Finset.sum_range_id_mul_two 252
    omega
  rw [hcast, hN]
  norm_num

/-! ### Weekday-collection lemmas (fallback generator) -/

lemma countW_add (a : ℕ) : ∀ (cur : ℤ) (b : ℕ),
    countW cur (a + b) = countW cur a + countW (cur + (a : ℤ)) b := by
  induction a with
  | zero =>
    intro cur b
    simp [countW]
  | succ a ih =>
    intro cur b
    have h1 : a + 1 + b = (a + b) + 1 := by omega
    have h2 : countW cur ((a + b) + 1) =
        (if cur % 7 < 5 then 1 else 0) + countW (cur + 1) (a + b) := rfl
    have h3 : countW cur (a + 1) = (if cur % 7 < 5 then 1 else 0) + countW (cur + 1) a := rfl
    rw [h1, h2, ih (cur + 1) b, h3]
    have h4 : cur + 1 + (a : ℤ) = cur + ((a : ℤ) + 1) := by ring
    rw [h4]
    push_cast
    ring_nf

lemma countW_seven (cur : ℤ) : countW cur 7 = 5 := by
  show (if cur % 7 < 5 then 1 else 0) +
      ((if (cur + 1) % 7 < 5 then 1 else 0) +
        ((if (cur + 1 + 1) % 7 < 5 then 1 else 0) +
          ((if (cur + 1 + 1 + 1) % 7 < 5 then 1 else 0) +
            ((if (cur + 1 + 1 + 1 + 1) % 7 < 5 then 1 else 0) +
              ((if (cur + 1 + 1 + 1 + 1 + 1) % 7 < 5 then 1 else 0) +
                ((if (cur + 1 + 1 + 1 + 1 + 1 + 1) % 7 < 5 then 1 else 0) + 0)))))) = 5
  split_ifs <;> omega

lemma countW_mul : ∀ (m : ℕ) (cur : ℤ), countW cur (7 * m) = 5 * m := by
  intro m
  induction m with
  | zero => intro cur; rfl
  | succ m ih =>
    intro cur
    have h1 : 7 * (m + 1) = 7 + 7 * m := by omega
    rw [h1, countW_add 7 cur (7 * m), countW_seven, ih]
    omega

lemma collect_length : ∀ (fuel : ℕ) (cur : ℤ) (need : ℕ),
    (collectWeekdays cur fuel need).length = min need (countW cur fuel) := by
  intro fuel
  induction fuel with
  | zero =>
    intro cur need
    simp [collectWeekdays, countW]
  | succ f ih =>
    intro cur need
    unfold collectWeekdays countW
    by_cases hneed : need = 0
    · rw [if_pos hneed, hneed]
      simp
    · rw [if_neg hneed]
      by_cases hw : cur % 7 < 5
      · rw [if_pos hw, if_pos hw]
        have := ih (cur + 1) (need - 1)
        simp only [List.length_cons, this]
        omega
      · rw [if_neg hw, if_neg hw]
        rw [ih (cur + 1) need]
        omega

lemma collect_weekday : ∀ (fuel : ℕ) (cur : ℤ) (need : ℕ) (d : ℤ),
    d ∈ collectWeekdays cur fuel need → d % 7 < 5 := by
  intro fuel
  induction fuel with
  | zero =>
    intro cur need d hd
    simp [collectWeekdays] at hd
  | succ f ih =>
    intro cur need d hd
    unfold collectWeekdays at hd
    by_cases hneed : need = 0
    · rw [if_pos hneed] at hd
      simp at hd
    · rw [if_neg hneed] at hd
      by_cases hw : cur % 7 < 5
      · rw [if_pos hw] at hd
        rcases List.mem_cons.mp hd with rfl | hd
        · exact hw
        · exact ih (cur + 1) (need - 1) d hd
      · rw [if_neg hw] at hd
        exact ih (cur + 1) need d hd

lemma collect_1001 (cur : ℤ) : (collectWeekdays cur 1001 500).length = 500 := by
  rw [collect_length 1001 cur 500]
  rw [show (1001 : ℕ) = 7 * 143 from rfl, countW_mul 143 cur]
  rfl

lemma getD_mem {α : Type} [Inhabited α] {l : List α} {i : ℕ} (h : i < l.length) :
    l.getD i default ∈ l := by
  rw [List.getD_eq_getElem?_getD, List.getElem?_eq_getElem h]
  exact List.getElem_mem h

lemma generate_length (sym : String) (days : ℕ) (now : ℤ) (rng : SampleRng) :
    (generate_sample_data sym days now rng).length = days := by
  simp [generate_sample_data]

lemma generate_weekday_500 (sym : String) (now : ℤ) (rng : SampleRng) :
    ∀ b ∈ generate_sample_data sym 500 now rng, b.date % 7 < 5 := by
  intro b hb
  unfold generate_sample_data at hb
  obtain ⟨i, hi, rfl⟩ := List.mem_map.mp hb
  have hi' : i < 500 := List.mem_range.mp hi
  have hlen : (collectWeekdays (now - 2 * ((500 : ℕ) : ℤ)) (2 * 500 + 1) 500).length = 500 :=
    collect_1001 _
  dsimp only
  rw [hlen]
  have hdrop : (collectWeekdays (now - 2 * ((500 : ℕ) : ℤ)) (2 * 500 + 1) 500).drop
      (500 - 500) = collectWeekdays (now - 2 * ((500 : ℕ) : ℤ)) (2 * 500 + 1) 500 := by
    rw [Nat.sub_self, List.drop_zero]
  rw [hdrop]
  refine collect_weekday _ _ _ _ (getD_mem ?_)
  rw [hlen]
  exact hi'

lemma computeMetrics_length (sym : String) (bars : List RawBar) :
    (computeMetrics sym bars).length = bars.length := by
  simp [computeMetrics]

lemma computeMetrics_date {sym : String} {bars : List RawBar} {r : PrepRow}
    (h : r ∈ computeMetrics sym bars) : ∃ b ∈ bars, r.date = b.date := by
  unfold computeMetrics at h
  obtain ⟨i, hi, rfl⟩ := List.mem_map.mp h
  exact ⟨bars.getD i default, getD_mem (List.mem_range.mp hi), rfl⟩

/-! ### Fill and price-path lemmas -/

lemma priceAt_ge (base : ℚ) (change : ℕ → ℚ) (i : ℕ) : (100 : ℚ) ≤ priceAt base change i := by
  cases i with
  | zero => exact le_max_left _ _
  | succ j => exact le_max_left _ _

lemma ffillGo_all_some : ∀ (xs : List (Option ℚ)) (last : Option ℚ),
    (∀ x ∈ xs, x.isSome) → ffillGo last xs = xs := by
  intro xs
  induction xs with
  | nil => intro last _; rfl
  | cons x t ih =>
    intro last hall
    cases x with
    | none =>
      have h0 := hall none (List.mem_cons_self none t)
      exact absurd h0 (by simp)
    | some v =>
      show some v :: ffillGo (some v) t = some v :: t
      rw [ih (some v) fun y hy => hall y (List.mem_cons_of_mem (some v) hy)]

lemma fill_all_some {xs : List (Option ℚ)} (h : ∀ x ∈ xs, x.isSome) :
    bfill (ffill xs) = xs := by
  unfold ffill bfill
  rw [ffillGo_all_some xs none h]
  rw [ffillGo_all_some xs.reverse none fun y hy => h y (List.mem_reverse.mp hy)]
  exact List.reverse_reverse xs

lemma getD_map_lt {α β : Type} [Inhabited α] (f : α → β) {l : List α} {i : ℕ}
    (h : i < l.length) (d : β) : (l.map f).getD i d = f (l.getD i default) := by
  rw [List.getD_eq_getElem?_getD, List.getElem?_map, List.getElem?_eq_getElem h,
    List.getD_eq_getElem?_getD, List.getElem?_eq_getElem h]
  rfl

/-- When every raw column value is present (as for the synthetic fallback),
the forward/backward fill is the identity and each persisted row carries the
raw fields of the bar at its index. -/
lemma computeMetrics_raw_fields {sym : String} {bars : List RawBar}
    (hall : ∀ b ∈ bars, b.open_.isSome ∧ b.high.isSome ∧ b.low.isSome
      ∧ b.close.isSome ∧ b.volume.isSome) :
    ∀ r ∈ computeMetrics sym bars, ∃ b ∈ bars,
      r.open_ = b.open_ ∧ r.high = b.high ∧ r.low = b.low ∧ r.close = b.close := by
  intro r hr
  unfold computeMetrics at hr
  obtain ⟨i, hi, rfl⟩ := List.mem_map.mp hr
  have hi2 : i < bars.length := List.mem_range.mp hi
  have hmem := getD_mem (l := bars) (i := i) hi2
  have hopen : bfill (ffill (bars.map (·.open_))) = bars.map (·.open_) :=
    fill_all_some fun x hx => by
      obtain ⟨b, hb, rfl⟩ := List.mem_map.mp hx
      exact (hall b hb).1
  have hhigh : bfill (ffill (bars.map (·.high))) = bars.map (·.high) :=
    fill_all_some fun x hx => by
      obtain ⟨b, hb, rfl⟩ := List.mem_map.mp hx
      exact (hall b hb).2.1
  have hlow : bfill (ffill (bars.map (·.low))) = bars.map (·.low) :=
    fill_all_some fun x hx => by
      obtain ⟨b, hb, rfl⟩ := List.mem_map.mp hx
      exact (hall b hb).2.2.1
  have hclose : bfill (ffill (bars.map (·.close))) = bars.map (·.close) :=
    fill_all_some fun x hx => by
      obtain ⟨b, hb, rfl⟩ := List.mem_map.mp hx
      exact (hall b hb).2.2.2.1
  refine ⟨bars.getD i default, hmem, ?_, ?_, ?_, ?_⟩
  · show (bfill (ffill (bars.map (·.open_)))).getD i none = _
    rw [hopen, getD_map_lt _ hi2]
  · show (bfill (ffill (bars.map (·.high)))).getD i none = _
    rw [hhigh, getD_map_lt _ hi2]
  · show (bfill (ffill (bars.map (·.low)))).getD i none = _
    rw [hlow, getD_map_lt _ hi2]
  · show (bfill (ffill (bars.map (·.close)))).getD i none = _
    rw [hclose, getD_map_lt _ hi2]

/-! ### Rolling-window lemmas -/

lemma window_length {xs : List (Option ℚ)} {i w : ℕ} (h : i < xs.length) :
    (window xs i w).length = min w (i + 1) := by
  unfold window
  rw [List.length_drop, List.length_take]
  omega

lemma window_subset {xs : List (Option ℚ)} {i w : ℕ} :
    ∀ x ∈ window xs i w, x ∈ xs := fun x hx =>
  List.mem_of_mem_take (List.mem_of_mem_drop hx)

lemma obs_length_all_some : ∀ {xs : List (Option ℚ)},
    (∀ x ∈ xs, x.isSome) → (obs xs).length = xs.length := by
  intro xs
  induction xs with
  | nil => intro _; rfl
  | cons x t ih =>
    intro hall
    cases x with
    | none =>
      have h0 := hall none (List.mem_cons_self none t)
      exact absurd h0 (by simp)
    | some v =>
      show (v :: obs t).length = t.length + 1
      rw [List.length_cons, ih fun y hy => hall y (List.mem_cons_of_mem _ hy)]

lemma obs_length_le (xs : List (Option ℚ)) : (obs xs).length ≤ xs.length :=
  List.length_filterMap_le id xs

lemma dailyReturns_all_some : ∀ (closes opens : List (Option ℚ)),
    (∀ o ∈ opens, o.isSome) → (∀ c ∈ closes, c.isSome) →
    ∀ x ∈ dailyReturns opens closes, x.isSome := by
  intro closes
  induction closes with
  | nil =>
    intro opens _ _ x hx
    simp [dailyReturns] at hx
  | cons c ct ih =>
    intro opens ho hc x hx
    cases opens with
    | nil => simp [dailyReturns] at hx
    | cons o ot =>
      have hcs := hc c (List.mem_cons_self c ct)
      have hos := ho o (List.mem_cons_self o ot)
      cases c with
      | none => exact absurd hcs (by simp)
      | some cv =>
        cases o with
        | none => exact absurd hos (by simp)
        | some ov =>
          have hx2 : x ∈ some ((cv - ov) / ov) :: dailyReturns ot ct := hx
          rcases List.mem_cons.mp hx2 with rfl | hx3
          · rfl
          · exact ih ot (fun y hy => ho y (List.mem_cons_of_mem _ hy))
              (fun y hy => hc y (List.mem_cons_of_mem _ hy)) x hx3

lemma dailyReturns_length (opens closes : List (Option ℚ)) :
    (dailyReturns opens closes).length = min closes.length opens.length := by
  unfold dailyReturns
  rw [List.length_zipWith]

lemma sampleVar_nonneg {vals : List ℚ} (h : 2 ≤ vals.length) : 0 ≤ sampleVar vals := by
  unfold sampleVar
  refine div_nonneg ?_ ?_
  · refine List.sum_nonneg ?_
    intro x hx
    obtain ⟨y, _, rfl⟩ := List.mem_map.mp hx
    positivity
  · have : (2 : ℚ) ≤ (vals.length : ℚ) := by exact_mod_cast h
    linarith

/-! ### Claim theorems (queries) -/

set_option maxRecDepth 8192 in
/-- Claim C7: for a symbol with at least one stored row, `get_symbol_summary`
returns the max of `high`, the min of `low` and the mean of `close`, all over
`tail(252)` of the ascending series — the most recent `min 252 available`
rows; for a symbol with no rows it returns the empty result; and on the
Scenario B store (252 rows, closes 1..252, high = close + 1) the average
close is `126.5 = 253/2` and the 52-week high is the max of `high` over all
252 rows. -/
theorem C7_get_summary :
    (∀ (store : List StockRow) (sym : String),
        store.filter (fun r => decide (r.symbol = upper sym)) = [] →
        get_symbol_summary store sym = none)
    ∧ (∀ (store : List StockRow) (sym : String),
        store.filter (fun r => decide (r.symbol = upper sym)) ≠ [] →
        ∃ s, get_symbol_summary store sym = some s
          ∧ List.Sorted dateLe (get_symbol_data store sym none)
          ∧ (tail252 (get_symbol_data store sym none)).length =
              min 252 (get_symbol_data store sym none).length
          ∧ s.high_52w ∈ (tail252 (get_symbol_data store sym none)).map (·.high)
          ∧ (∀ x ∈ (tail252 (get_symbol_data store sym none)).map (·.high), x ≤ s.high_52w)
          ∧ s.low_52w ∈ (tail252 (get_symbol_data store sym none)).map (·.low)
          ∧ (∀ x ∈ (tail252 (get_symbol_data store sym none)).map (·.low), s.low_52w ≤ x)
          ∧ s.avg_close = ((tail252 (get_symbol_data store sym none)).map (·.close)).sum /
              (((tail252 (get_symbol_data store sym none)).map (·.close)).length : ℚ))
    ∧ (get_symbol_summary scenarioStore "TEST").map Summary.avg_close = some (253 / 2)
    ∧ (get_symbol_summary scenarioStore "TEST").map Summary.high_52w =
        some (listMax 0 ((get_symbol_data scenarioStore "TEST" none).map (·.high)))
    ∧ (get_symbol_data scenarioStore "TEST" none).length = 252 := by
  have hne : scenarioStore.reverse ≠ [] := by
    simp [scenarioStore]
  have htail : tail252 scenarioStore.reverse = scenarioStore.reverse := by
    unfold tail252
    rw [List.length_reverse, scenarioStore_length]
    simp
  refine ⟨?_, ?_, ?_, ?_, ?_⟩
  · intro store sym hfil
    have hdfnil : get_symbol_data store sym none = [] := by
      have hperm := get_symbol_data_none_perm store sym
      rw [hfil] at hperm
      exact hperm.eq_nil
    simp only [get_symbol_summary]
    rw [if_pos hdfnil]
  · intro store sym hfil
    have hdfne : get_symbol_data store sym none ≠ [] := by
      intro h0
      have hperm := get_symbol_data_none_perm store sym
      rw [h0] at hperm
      exact hfil hperm.nil_eq.symm
    have htne : tail252 (get_symbol_data store sym none) ≠ [] := by
      have hpos : 0 < (get_symbol_data store sym none).length :=
        List.length_pos.mpr hdfne
      have : 0 < (tail252 (get_symbol_data store sym none)).length := by
        unfold tail252
        rw [List.length_drop]
        omega
      exact List.ne_nil_of_length_pos this
    have hmapne : ∀ f : StockRow → ℚ, (tail252 (get_symbol_data store sym none)).map f ≠ [] := by
      intro f h0
      exact htne (List.map_eq_nil_iff.mp h0)
    simp only [get_symbol_summary]
    rw [if_neg hdfne]
    refine ⟨_, rfl, ?_, ?_, ?_, ?_, ?_, ?_, rfl⟩
    · unfold get_symbol_data
      exact sorted_sortAsc _
    · unfold tail252
      rw [List.length_drop]
      omega
    · exact listMax_mem 0 (hmapne (·.high))
    · intro x hx
      exact le_listMax 0 hx
    · exact listMin_mem 0 (hmapne (·.low))
    · intro x hx
      exact listMin_le 0 hx
  · simp only [get_symbol_summary, scenarioStore_gsd]
    rw [if_neg hne]
    simp only [Option.map_some']
    congr 1
    show ((tail252 scenarioStore.reverse).map (·.close)).sum /
        (((tail252 scenarioStore.reverse).map (·.close)).length : ℚ) = 253 / 2
    rw [htail, List.map_reverse, List.sum_reverse, scenarioStore_close_sum,
      List.length_reverse, List.length_map, scenarioStore_length]
    norm_num
  · simp only [get_symbol_summary, scenarioStore_gsd]
    rw [if_neg hne]
    simp only [Option.map_some']
    rw [htail, List.map_reverse]
  · rw [scenarioStore_gsd, List.length_reverse, scenarioStore_length]

/-- Witness for C7: the nonempty-symbol branch applied to a concrete one-row
store, producing a summary object. -/
theorem C7_witness : (get_symbol_summary storeCase "abc").isSome = true := by
  obtain ⟨s, hs, _⟩ := C7_get_summary.2.1 storeCase "abc" (by decide)
  rw [hs]
  rfl

/-- Claim C3: a successful `compare(symbol1, symbol2, days)` computes
`common_end` as the minimum of the two fetched series' maximum dates,
restricts each fetched series to exactly the rows with
`date ≥ common_end - days`, re-sorted ascending, and pairs the restricted
windows positionally; in Scenario C (symbol A through 2024-06-01 = day 152,
symbol B through 2024-05-30 = day 150, days = 30, day 0 = 2024-01-01) the
common end is day 150 = 2024-05-30 and every row of either restricted window
has date ≥ day 120 = 2024-04-30. -/
theorem C3_compare_common_window :
    (∀ (store : List StockRow) (s1 s2 : String) (days : ℕ) (res : CompareResult),
        compare store s1 s2 days = .ok res →
        commonEnd (fetchedSeries store (upper s1) days) (fetchedSeries store (upper s2) days) =
          min (maxDate (fetchedSeries store (upper s1) days))
            (maxDate (fetchedSeries store (upper s2) days))
        ∧ (∀ r, r ∈ restrictWindow (fetchedSeries store (upper s1) days)
              (commonEnd (fetchedSeries store (upper s1) days)
                (fetchedSeries store (upper s2) days)) days ↔
            r ∈ fetchedSeries store (upper s1) days ∧
              commonEnd (fetchedSeries store (upper s1) days)
                  (fetchedSeries store (upper s2) days) - (days : ℤ) ≤ r.date)
        ∧ (∀ r, r ∈ restrictWindow (fetchedSeries store (upper s2) days)
              (commonEnd (fetchedSeries store (upper s1) days)
                (fetchedSeries store (upper s2) days)) days ↔
            r ∈ fetchedSeries store (upper s2) days ∧
              commonEnd (fetchedSeries store (upper s1) days)
                  (fetchedSeries store (upper s2) days) - (days : ℤ) ≤ r.date)
        ∧ List.Sorted dateLe (restrictWindow (fetchedSeries store (upper s1) days)
            (commonEnd (fetchedSeries store (upper s1) days)
              (fetchedSeries store (upper s2) days)) days)
        ∧ List.Sorted dateLe (restrictWindow (fetchedSeries store (upper s2) days)
            (commonEnd (fetchedSeries store (upper s1) days)
              (fetchedSeries store (upper s2) days)) days)
        ∧ res.data.length =
            min (restrictWindow (fetchedSeries store (upper s1) days)
                (commonEnd (fetchedSeries store (upper s1) days)
                  (fetchedSeries store (upper s2) days)) days).length
              (restrictWindow (fetchedSeries store (upper s2) days)
                (commonEnd (fetchedSeries store (upper s1) days)
                  (fetchedSeries store (upper s2) days)) days).length
        ∧ ∀ i, i < res.data.length →
            (res.data.getD i default).date =
              ((restrictWindow (fetchedSeries store (upper s1) days)
                (commonEnd (fetchedSeries store (upper s1) days)
                  (fetchedSeries store (upper s2) days)) days).getD i default).date)
    ∧ commonEnd (fetchedSeries storeC "A" 30) (fetchedSeries storeC "B" 30) = 150
    ∧ (∀ r ∈ restrictWindow (fetchedSeries storeC "A" 30) 150 30, 120 ≤ r.date)
    ∧ (∀ r ∈ restrictWindow (fetchedSeries storeC "B" 30) 150 30, 120 ≤ r.date) := by
  refine ⟨?_, by decide, by decide, by decide⟩
  intro store s1 s2 days res h
  obtain ⟨hf1, hf2, hr1, hr2, rfl⟩ := compare_ok h
  refine ⟨rfl, fun r => mem_restrictWindow, fun r => mem_restrictWindow,
    sorted_restrictWindow _ _ _, sorted_restrictWindow _ _ _, compareData_length _ _, ?_⟩
  intro i hi
  rw [compareData_length] at hi
  show ((compareData
      (restrictWindow (fetchedSeries store (upper s1) days)
        (commonEnd (fetchedSeries store (upper s1) days)
          (fetchedSeries store (upper s2) days)) days)
      (restrictWindow (fetchedSeries store (upper s2) days)
        (commonEnd (fetchedSeries store (upper s1) days)
          (fetchedSeries store (upper s2) days)) days)).getD i default).date = _
  rw [compareData_getD _ _ hi]

/-- Witness for C3: on the Scenario C store, the paired output length is the
minimum of the two restricted windows' lengths. -/
theorem C3_witness :
    resC.data.length =
      min (restrictWindow (fetchedSeries storeC (upper "A") 30)
          (commonEnd (fetchedSeries storeC (upper "A") 30)
            (fetchedSeries storeC (upper "B") 30)) 30).length
        (restrictWindow (fetchedSeries storeC (upper "B") 30)
          (commonEnd (fetchedSeries storeC (upper "A") 30)
            (fetchedSeries storeC (upper "B") 30)) 30).length := by
  have hok : compare storeC "A" "B" 30 = .ok resC := by
    unfold compare resC
    dsimp only
    rw [if_neg (by decide), if_neg (by decide)]
  exact (C3_compare_common_window.1 storeC "A" "B" 30 resC hok).2.2.2.2.2.1

/-- Claim C4: each symbol's restricted series in a successful `compare` call
is normalized by its own first close, so (as long as stored closes are
positive) the first output row carries `100.00` for both symbols after
rounding to two decimals. -/
theorem C4_normalization_starts_at_100 :
    ∀ (store : List StockRow) (s1 s2 : String) (days : ℕ) (res : CompareResult),
      compare store s1 s2 days = .ok res →
      (∀ r ∈ store, 0 < r.close) →
      ∃ row0 rest, res.data = row0 :: rest
        ∧ row0.normalized1 = 100 ∧ row0.normalized2 = 100 := by
  intro store s1 s2 days res h hpos
  obtain ⟨hf1, hf2, hr1, hr2, rfl⟩ := compare_ok h
  have hclose : ∀ R : List StockRow,
      R = restrictWindow (fetchedSeries store (upper s1) days)
            (commonEnd (fetchedSeries store (upper s1) days)
              (fetchedSeries store (upper s2) days)) days ∨
      R = restrictWindow (fetchedSeries store (upper s2) days)
            (commonEnd (fetchedSeries store (upper s1) days)
              (fetchedSeries store (upper s2) days)) days →
      R ≠ [] → round2 (normalizedAt R 0) = 100 := by
    intro R hR hRne
    have hmem : R.getD 0 default ∈ store := by
      have h0 : R.getD 0 default ∈ R := getD_zero_mem hRne
      rcases hR with rfl | rfl
      all_goals
        have h1 := (mem_restrictWindow.mp h0).1
        exact mem_get_symbol_data h1
    have hc : (R.getD 0 default).close ≠ 0 := ne_of_gt (hpos _ hmem)
    unfold normalizedAt
    rw [div_self hc, one_mul]
    exact round2_100
  refine ⟨_, _, compareData_cons hr1 hr2, ?_, ?_⟩
  · exact hclose _ (Or.inl rfl) hr1
  · exact hclose _ (Or.inr rfl) hr2

/-- Witness for C4: on the Scenario C store both normalized values of the
first output row equal 100. -/
theorem C4_witness :
    (resC.data.getD 0 default).normalized1 = 100
    ∧ (resC.data.getD 0 default).normalized2 = 100 := by
  have hok : compare storeC "A" "B" 30 = .ok resC := by
    unfold compare resC
    dsimp only
    rw [if_neg (by decide), if_neg (by decide)]
  obtain ⟨row0, rest, h1, h2, h3⟩ :=
    C4_normalization_starts_at_100 storeC "A" "B" 30 resC hok (by decide)
  rw [h1]
  exact ⟨h2, h3⟩

/-- Counterexample to claim C5 as stated: with every attempt returning an
empty (non-error) result, the loop runs through all three attempts (the final
`df` is the empty frame) yet records no back-off sleep at all, while the
claim asserts a 2-second and a 4-second sleep between consecutive attempts
whether the previous attempt errored or came back empty.  For contrast, the
all-error run does sleep 2 s and then 4 s. -/
theorem C5_counterexample :
    (fetchRetry fun _ => .result []).1 = some []
    ∧ (fetchRetry fun _ => .result []).2 = []
    ∧ (fetchRetry fun _ => .result []).2 ≠ [2, 4]
    ∧ (fetchRetry fun _ => .err).2 = [2, 4] := by
  refine ⟨by decide, by decide, ?_, by decide⟩
  intro h
  rw [show (fetchRetry fun _ => .result []).2 = [] from by decide] at h
  exact List.noConfusion h

/-- Claim C5 (amended): the retry loop makes at most three attempts (its
outcome depends only on attempts 0, 1, 2); it sleeps `(k+1)*2` seconds after
attempt `k` only when that attempt raised an error and was not the last
attempt (2 s after the first, 4 s after the second); an attempt returning an
empty result moves to the next attempt with no sleep; and a non-empty result
on the first attempt ends the loop at once with no sleeps.  `fetchRetrySpec`
is that behavior written out attempt by attempt. -/
theorem C5_retry_sleeps :
    (∀ o, fetchRetry o = fetchRetrySpec o)
    ∧ (∀ o o', (∀ k, k < 3 → o k = o' k) → fetchRetry o = fetchRetry o')
    ∧ (∀ o (bs : List RawBar), bs ≠ [] → o 0 = .result bs →
        fetchRetry o = (some bs, [])) := by
  have hspec : ∀ o, fetchRetry o = fetchRetrySpec o := by
    intro o
    unfold fetchRetry fetchRetrySpec
    cases h0 : o 0 <;> cases h1 : o 1 <;> cases h2 : o 2 <;>
      simp [fetchRetryGo, h0, h1, h2, max_retries] <;>
      split_ifs <;> simp_all
  refine ⟨hspec, ?_, ?_⟩
  · intro o o' h
    rw [hspec o, hspec o']
    unfold fetchRetrySpec
    rw [h 0 (by omega), h 1 (by omega), h 2 (by omega)]
  · intro o bs hbs h0
    rw [hspec o]
    unfold fetchRetrySpec
    rw [h0]
    dsimp only
    rw [if_neg hbs]

/-- Witness for C5 (amended): a non-empty first attempt ends the loop at once
with no sleeps. -/
theorem C5_witness :
    fetchRetry (fun _ => AttemptOutcome.result barsOne) = (some barsOne, []) :=
  C5_retry_sleeps.2.2 _ barsOne (by decide) rfl

set_option maxRecDepth 8192 in
/-- Claim C6: when every retry attempt yields an empty or failed result and
the fallback is disabled, `fetch_save` fails with `DataUnavailable`; with the
fallback enabled it never fails, and for a 2-year period request with a
failing upstream it returns exactly 500 synthetic bars whose dates are all
weekdays. -/
theorem C6_fallback_data_unavailable :
    (∀ (o : ℕ → AttemptOutcome) (now : ℤ) (rng : SampleRng) (sym period : String),
        (fetchRetry o).1 = none ∨ (fetchRetry o).1 = some [] →
        fetch_save sym period false o now rng = .error .DataUnavailable)
    ∧ (∀ (o : ℕ → AttemptOutcome) (now : ℤ) (rng : SampleRng) (sym period : String),
        (fetch_save sym period true o now rng).toOption ≠ none)
    ∧ (∀ (o : ℕ → AttemptOutcome) (now : ℤ) (rng : SampleRng) (sym : String),
        (fetchRetry o).1 = none ∨ (fetchRetry o).1 = some [] →
        (fetch_save sym "2y" true o now rng).toOption.map List.length = some 500
        ∧ (fetch_save sym "2y" true o now rng).toOption.getD [] ≠ []
        ∧ ∀ r ∈ (fetch_save sym "2y" true o now rng).toOption.getD [],
            r.date % 7 < 5) := by
  refine ⟨?_, ?_, ?_⟩
  · intro o now rng sym period h
    unfold fetch_save
    rcases h with h | h <;> rw [h] <;> rfl
  · intro o now rng sym period
    unfold fetch_save
    cases hdf : (fetchRetry o).1 with
    | none =>
      dsimp only
      rw [if_pos rfl]
      intro hcon
      exact Option.noConfusion hcon
    | some bs =>
      dsimp only
      by_cases hbs : bs = []
      · rw [if_pos hbs, if_pos rfl]
        intro hcon
        exact Option.noConfusion hcon
      · rw [if_neg hbs]
        intro hcon
        exact Option.noConfusion hcon
  · intro o now rng sym h
    have hbars : fetch_save sym "2y" true o now rng =
        .ok (computeMetrics sym
          ((generate_sample_data sym (periodDays "2y") now rng).map toRawBar)) := by
      unfold fetch_save
      rcases h with h | h <;> rw [h] <;> rfl
    have h500 : periodDays "2y" = 500 := rfl
    have hlen : (computeMetrics sym
        ((generate_sample_data sym (periodDays "2y") now rng).map toRawBar)).length = 500 := by
      rw [computeMetrics_length, List.length_map, generate_length, h500]
    refine ⟨?_, ?_, ?_⟩
    · rw [hbars]
      show some (computeMetrics sym
        ((generate_sample_data sym (periodDays "2y") now rng).map toRawBar)).length = some 500
      rw [hlen]
    · rw [hbars]
      show computeMetrics sym
        ((generate_sample_data sym (periodDays "2y") now rng).map toRawBar) ≠ []
      refine List.ne_nil_of_length_pos ?_
      rw [hlen]
      omega
    · rw [hbars]
      intro r hr
      have hr' : r ∈ computeMetrics sym
          ((generate_sample_data sym (periodDays "2y") now rng).map toRawBar) := hr
      obtain ⟨b, hb, hdate⟩ := computeMetrics_date hr'
      obtain ⟨sb, hsb, rfl⟩ := List.mem_map.mp hb
      rw [h500] at hsb
      rw [hdate]
      exact generate_weekday_500 sym now rng sb hsb

/-- Witness for C6: with every attempt failing, fallback disabled fails with
`DataUnavailable`, and fallback enabled returns 500 rows for a 2-year
request. -/
theorem C6_witness :
    fetch_save "X" "1y" false oErr 0 rng0 = .error .DataUnavailable
    ∧ (fetch_save "X" "2y" true oErr 0 rng0).toOption.map List.length = some 500 := by
  have h : (fetchRetry oErr).1 = none ∨ (fetchRetry oErr).1 = some [] :=
    Or.inl (by decide)
  exact ⟨C6_fallback_data_unavailable.1 oErr 0 rng0 "X" "1y" h,
    (C6_fallback_data_unavailable.2.2 oErr 0 rng0 "X" h).1⟩

/-- Claim C8: every bar produced by the synthetic fallback generator, for any
symbol, requested length and generator draws within the ranges of the
`np.random.uniform` calls in the source, satisfies `high ≥ max(open, close)`
and `low ≤ min(open, close)`; consequently the raw fields of every row
persisted from fallback data (where no value is missing, so the fills are the
identity) satisfy the same bar invariant. -/
theorem C8_synthetic_bar_invariant :
    ∀ (sym : String) (days : ℕ) (now : ℤ) (rng : SampleRng),
      (∀ i, -(1 / 100 : ℚ) ≤ rng.jOpen i ∧ rng.jOpen i < 1 / 100) →
      (∀ i, 0 ≤ rng.jHigh i ∧ rng.jHigh i < 2 / 100) →
      (∀ i, 0 ≤ rng.jLow i ∧ rng.jLow i < 2 / 100) →
      0 ≤ rng.jHigh2 ∧ rng.jHigh2 < 1 / 100 →
      0 ≤ rng.jLow2 ∧ rng.jLow2 < 1 / 100 →
      (∀ b ∈ generate_sample_data sym days now rng,
        max b.open_ b.close ≤ b.high ∧ b.low ≤ min b.open_ b.close)
      ∧ ∀ r ∈ computeMetrics sym ((generate_sample_data sym days now rng).map toRawBar),
          ∃ op hi lo cl : ℚ, r.open_ = some op ∧ r.high = some hi ∧ r.low = some lo
            ∧ r.close = some cl ∧ max op cl ≤ hi ∧ lo ≤ min op cl := by
  intro sym days now rng hjo hjh hjl hj2h hj2l
  have hbar : ∀ b ∈ generate_sample_data sym days now rng,
      max b.open_ b.close ≤ b.high ∧ b.low ≤ min b.open_ b.close := by
    intro b hb
    unfold generate_sample_data at hb
    obtain ⟨i, _, rfl⟩ := List.mem_map.mp hb
    dsimp only
    have hp : (100 : ℚ) ≤ priceAt (base_prices (upper sym)) rng.change i :=
      priceAt_ge _ _ _
    set p := priceAt (base_prices (upper sym)) rng.change i with hpdef
    have hp0 : (0 : ℚ) < p := by linarith
    have ho0 : 0 ≤ p * (1 + rng.jOpen i) := by
      have := (hjo i).1
      nlinarith
    have hl0 : 0 ≤ p * (1 - rng.jLow i) := by
      have := (hjl i).2
      nlinarith
    constructor
    · have h1 : max (p * (1 + rng.jOpen i)) p ≤
          max (max (p * (1 + rng.jOpen i)) (p * (1 + rng.jHigh i))) p :=
        max_le_max (le_max_left _ _) le_rfl
      have hM0 : 0 ≤ max (max (p * (1 + rng.jOpen i)) (p * (1 + rng.jHigh i))) p :=
        le_trans (le_of_lt hp0) (le_max_right _ _)
      have h2 : max (max (p * (1 + rng.jOpen i)) (p * (1 + rng.jHigh i))) p ≤
          max (max (p * (1 + rng.jOpen i)) (p * (1 + rng.jHigh i))) p * (1 + rng.jHigh2) := by
        have := hj2h.1
        nlinarith
      exact le_trans h1 h2
    · have h1 : min (min (p * (1 + rng.jOpen i)) (p * (1 - rng.jLow i))) p ≤
          min (p * (1 + rng.jOpen i)) p :=
        min_le_min (min_le_left _ _) le_rfl
      have hm0 : 0 ≤ min (min (p * (1 + rng.jOpen i)) (p * (1 - rng.jLow i))) p :=
        le_min (le_min ho0 hl0) (le_of_lt hp0)
      have h2 : min (min (p * (1 + rng.jOpen i)) (p * (1 - rng.jLow i))) p * (1 - rng.jLow2) ≤
          min (min (p * (1 + rng.jOpen i)) (p * (1 - rng.jLow i))) p := by
        have := hj2l.1
        nlinarith
      exact le_trans h2 h1
  refine ⟨hbar, ?_⟩
  intro r hr
  have hall : ∀ b ∈ (generate_sample_data sym days now rng).map toRawBar,
      b.open_.isSome ∧ b.high.isSome ∧ b.low.isSome ∧ b.close.isSome ∧ b.volume.isSome := by
    intro b hb
    obtain ⟨sb, _, rfl⟩ := List.mem_map.mp hb
    exact ⟨rfl, rfl, rfl, rfl, rfl⟩
  obtain ⟨b, hb, ho, hh, hl, hc⟩ := computeMetrics_raw_fields hall r hr
  obtain ⟨sb, hsb, rfl⟩ := List.mem_map.mp hb
  obtain ⟨h1, h2⟩ := hbar sb hsb
  exact ⟨sb.open_, sb.high, sb.low, sb.close, ho, hh, hl, hc, h1, h2⟩

/-- Witness for C8: the all-zero draws lie inside every required range, and
the first generated bar for a one-day request satisfies the invariant. -/
theorem C8_witness :
    max ((generate_sample_data "X" 1 0 rng0).getD 0 default).open_
        ((generate_sample_data "X" 1 0 rng0).getD 0 default).close
      ≤ ((generate_sample_data "X" 1 0 rng0).getD 0 default).high
    ∧ ((generate_sample_data "X" 1 0 rng0).getD 0 default).low
      ≤ min ((generate_sample_data "X" 1 0 rng0).getD 0 default).open_
          ((generate_sample_data "X" 1 0 rng0).getD 0 default).close := by
  have hmem : (generate_sample_data "X" 1 0 rng0).getD 0 default ∈
      generate_sample_data "X" 1 0 rng0 := by
    refine getD_mem ?_
    rw [generate_length]
    omega
  exact (C8_synthetic_bar_invariant "X" 1 0 rng0
    (fun i => by constructor <;> norm_num [rng0])
    (fun i => by constructor <;> norm_num [rng0])
    (fun i => by constructor <;> norm_num [rng0])
    (by constructor <;> norm_num [rng0])
    (by constructor <;> norm_num [rng0])).1 _ hmem

/-- Counterexample to claim C1 as stated: the claim says a one-row window
yields a standard deviation of 0, so `volatility[i]` is defined and
nonnegative for every `i` including `i = 0`.  On a one-bar input the code's
`rolling(30, min_periods=1).std()` (pandas `ddof = 1`) produces `NaN` at row
0: the persisted squared volatility is `none`, not a nonnegative number. -/
theorem C1_counterexample :
    ((computeMetrics "T" barsOne).getD 0 default).volatility_sq = none := by
  rfl

/-- Claim C1 (amended): for rows `i ≥ 1` (so the trailing 30-row window holds
at least two observations) the persisted volatility is defined and equals the
sample standard deviation (`ddof = 1`, the pandas default) of `daily_return`
over the trailing 30-row window times `sqrt 252`, hence is nonnegative; the
row-0 volatility is `NaN` (undefined), not 0.  The squared persisted value is
the `volatility_sq` field; the persisted real is its square root. -/
theorem C1_volatility_annualized :
    (∀ (sym : String) (bars : List RawBar),
        (∀ b ∈ bars, b.open_.isSome ∧ b.close.isSome) →
        ∀ i, 1 ≤ i → i < bars.length →
          ((computeMetrics sym bars).getD i default).volatility_sq =
            some (sampleVar (obs (window (dailyReturns (bars.map (·.open_))
              (bars.map (·.close))) i 30)) * 252)
          ∧ Real.sqrt ((sampleVar (obs (window (dailyReturns (bars.map (·.open_))
              (bars.map (·.close))) i 30)) * 252 : ℚ)) =
            Real.sqrt ((sampleVar (obs (window (dailyReturns (bars.map (·.open_))
              (bars.map (·.close))) i 30)) : ℚ)) * Real.sqrt 252
          ∧ (0 : ℝ) ≤ Real.sqrt ((sampleVar (obs (window (dailyReturns (bars.map (·.open_))
              (bars.map (·.close))) i 30)) * 252 : ℚ)))
    ∧ (∀ (sym : String) (bars : List RawBar), bars ≠ [] →
        ((computeMetrics sym bars).getD 0 default).volatility_sq = none) := by
  constructor
  · intro sym bars hall i h1 hn
    have hdr_len : (dailyReturns (bars.map (·.open_)) (bars.map (·.close))).length =
        bars.length := by
      rw [dailyReturns_length, List.length_map, List.length_map]
      omega
    have hdr_some : ∀ x ∈ dailyReturns (bars.map (·.open_)) (bars.map (·.close)),
        x.isSome := by
      refine dailyReturns_all_some (bars.map (·.close)) (bars.map (·.open_)) ?_ ?_
      · intro o hoo
        obtain ⟨b, hb, rfl⟩ := List.mem_map.mp hoo
        exact (hall b hb).1
      · intro c hcc
        obtain ⟨b, hb, rfl⟩ := List.mem_map.mp hcc
        exact (hall b hb).2
    have hwin : (window (dailyReturns (bars.map (·.open_)) (bars.map (·.close))) i 30).length =
        min 30 (i + 1) := window_length (by omega)
    have hobs : (obs (window (dailyReturns (bars.map (·.open_))
        (bars.map (·.close))) i 30)).length = min 30 (i + 1) := by
      rw [obs_length_all_some fun x hx => hdr_some x (window_subset x hx), hwin]
    have h2le : 2 ≤ (obs (window (dailyReturns (bars.map (·.open_))
        (bars.map (·.close))) i 30)).length := by
      rw [hobs]
      omega
    have hrow : (computeMetrics sym bars).getD i default =
        (fun j => (⟨upper sym,
          (bars.getD j default).date,
          (bfill (ffill (bars.map (·.open_)))).getD j none,
          (bfill (ffill (bars.map (·.high)))).getD j none,
          (bfill (ffill (bars.map (·.low)))).getD j none,
          (bfill (ffill (bars.map (·.close)))).getD j none,
          (bfill (ffill (bars.map (·.volume)))).getD j none,
          (dailyReturns (bars.map (·.open_)) (bars.map (·.close))).getD j none,
          rollingMean (bars.map (·.close)) j 7,
          rollingMax (bars.map (·.high)) j 252,
          rollingMin (bars.map (·.low)) j 252,
          (rollingVar (dailyReturns (bars.map (·.open_))
            (bars.map (·.close))) j 30).map fun v => v * 252⟩ : PrepRow)) i := by
      show ((List.range bars.length).map _).getD i default = _
      exact getD_range_map _ hn
    refine ⟨?_, ?_, Real.sqrt_nonneg _⟩
    · rw [hrow]
      show (rollingVar (dailyReturns (bars.map (·.open_))
          (bars.map (·.close))) i 30).map (fun v => v * 252) = _
      unfold rollingVar
      dsimp only
      rw [if_pos h2le]
      rfl
    · have hv := sampleVar_nonneg h2le
      rw [show ((sampleVar (obs (window (dailyReturns (bars.map (·.open_))
            (bars.map (·.close))) i 30)) * 252 : ℚ) : ℝ) =
          ((sampleVar (obs (window (dailyReturns (bars.map (·.open_))
            (bars.map (·.close))) i 30)) : ℚ) : ℝ) * (252 : ℝ) by push_cast; ring]
      exact Real.sqrt_mul (by exact_mod_cast hv) _
  · intro sym bars hne
    have hn0 : 0 < bars.length := List.length_pos.mpr hne
    have hrow0 : (computeMetrics sym bars).getD 0 default =
        (fun j => (⟨upper sym,
          (bars.getD j default).date,
          (bfill (ffill (bars.map (·.open_)))).getD j none,
          (bfill (ffill (bars.map (·.high)))).getD j none,
          (bfill (ffill (bars.map (·.low)))).getD j none,
          (bfill (ffill (bars.map (·.close)))).getD j none,
          (bfill (ffill (bars.map (·.volume)))).getD j none,
          (dailyReturns (bars.map (·.open_)) (bars.map (·.close))).getD j none,
          rollingMean (bars.map (·.close)) j 7,
          rollingMax (bars.map (·.high)) j 252,
          rollingMin (bars.map (·.low)) j 252,
          (rollingVar (dailyReturns (bars.map (·.open_))
            (bars.map (·.close))) j 30).map fun v => v * 252⟩ : PrepRow)) 0 := by
      show ((List.range bars.length).map _).getD 0 default = _
      exact getD_range_map _ hn0
    rw [hrow0]
    show (rollingVar (dailyReturns (bars.map (·.open_))
        (bars.map (·.close))) 0 30).map (fun v => v * 252) = none
    unfold rollingVar
    dsimp only
    rw [if_neg]
    · rfl
    · intro hcon
      have hwle : (window (dailyReturns (bars.map (·.open_))
          (bars.map (·.close))) 0 30).length ≤ 1 := by
        unfold window
        rw [List.length_drop, List.length_take]
        omega
      have := obs_length_le (window (dailyReturns (bars.map (·.open_))
        (bars.map (·.close))) 0 30)
      omega

/-- Witness for C1 (amended): on two complete bars, the row-1 squared
volatility is defined and its square root is nonnegative. -/
theorem C1_witness :
    ((computeMetrics "T" barsTwo).getD 1 default).volatility_sq =
      some (sampleVar (obs (window (dailyReturns (barsTwo.map (·.open_))
        (barsTwo.map (·.close))) 1 30)) * 252)
    ∧ (0 : ℝ) ≤ Real.sqrt ((sampleVar (obs (window (dailyReturns (barsTwo.map (·.open_))
        (barsTwo.map (·.close))) 1 30)) * 252 : ℚ)) := by
  have h := C1_volatility_annualized.1 "T" barsTwo (by decide) 1 (by omega) (by decide)
  exact ⟨h.1, h.2.2⟩

set_option maxHeartbeats 1000000 in
/-- Claim C2 (code bug, evaluated at the failing input): on the raw close
column `[10, NaN, 20]` the pipeline persists `close = [10, 10, 20]` — the
forward-filled values, not the values originally supplied — and computes
`ma_7` *before* that fill, giving `[10, 10, 15]` (the mean over the
non-missing closes), whereas the specification's required fill-before-derive
order (`computeMetricsFillFirst`) gives `[10, 10, 40/3]`.  The two orders
disagree, so the code violates the claim. -/
theorem C2_fill_order_divergence :
    barsGap.map (·.close) = [some 10, none, some 20]
    ∧ (computeMetrics "T" barsGap).map (·.close) = [some 10, some 10, some 20]
    ∧ (computeMetrics "T" barsGap).map (·.ma_7) = [some 10, some 10, some 15]
    ∧ (computeMetricsFillFirst "T" barsGap).map (·.ma_7) =
        [some 10, some 10, some (40 / 3)]
    ∧ (computeMetrics "T" barsGap).map (·.ma_7) ≠
        (computeMetricsFillFirst "T" barsGap).map (·.ma_7) := by
  have hcode : (computeMetrics "T" barsGap).map (·.ma_7) = [some 10, some 10, some 15] := by
    rw [show (computeMetrics "T" barsGap).map (·.ma_7) =
        [rollingMean (barsGap.map (·.close)) 0 7, rollingMean (barsGap.map (·.close)) 1 7,
         rollingMean (barsGap.map (·.close)) 2 7] from rfl]
    have e0 : rollingMean (barsGap.map (·.close)) 0 7 = some 10 := by
      show some ((obs (window (barsGap.map (·.close)) 0 7)).sum /
        ((obs (window (barsGap.map (·.close)) 0 7)).length : ℚ)) = some 10
      rw [show obs (window (barsGap.map (·.close)) 0 7) = [10] from rfl]
      norm_num
    have e1 : rollingMean (barsGap.map (·.close)) 1 7 = some 10 := by
      show some ((obs (window (barsGap.map (·.close)) 1 7)).sum /
        ((obs (window (barsGap.map (·.close)) 1 7)).length : ℚ)) = some 10
      rw [show obs (window (barsGap.map (·.close)) 1 7) = [10] from rfl]
      norm_num
    have e2 : rollingMean (barsGap.map (·.close)) 2 7 = some 15 := by
      show some ((obs (window (barsGap.map (·.close)) 2 7)).sum /
        ((obs (window (barsGap.map (·.close)) 2 7)).length : ℚ)) = some 15
      rw [show obs (window (barsGap.map (·.close)) 2 7) = [10, 20] from rfl]
      norm_num
    rw [e0, e1, e2]
  have hspec : (computeMetricsFillFirst "T" barsGap).map (·.ma_7) =
      [some 10, some 10, some (40 / 3)] := by
    rw [show (computeMetricsFillFirst "T" barsGap).map (·.ma_7) =
        [rollingMean (bfill (ffill (barsGap.map (·.close)))) 0 7,
         rollingMean (bfill (ffill (barsGap.map (·.close)))) 1 7,
         rollingMean (bfill (ffill (barsGap.map (·.close)))) 2 7] from rfl]
    have e0 : rollingMean (bfill (ffill (barsGap.map (·.close)))) 0 7 = some 10 := by
      show some ((obs (window (bfill (ffill (barsGap.map (·.close)))) 0 7)).sum /
        ((obs (window (bfill (ffill (barsGap.map (·.close)))) 0 7)).length : ℚ)) = some 10
      rw [show obs (window (bfill (ffill (barsGap.map (·.close)))) 0 7) = [10] from rfl]
      norm_num
    have e1 : rollingMean (bfill (ffill (barsGap.map (·.close)))) 1 7 = some 10 := by
      show some ((obs (window (bfill (ffill (barsGap.map (·.close)))) 1 7)).sum /
        ((obs (window (bfill (ffill (barsGap.map (·.close)))) 1 7)).length : ℚ)) = some 10
      rw [show obs (window (bfill (ffill (barsGap.map (·.close)))) 1 7) = [10, 10] from rfl]
      norm_num
    have e2 : rollingMean (bfill (ffill (barsGap.map (·.close)))) 2 7 = some (40 / 3) := by
      show some ((obs (window (bfill (ffill (barsGap.map (·.close)))) 2 7)).sum /
        ((obs (window (bfill (ffill (barsGap.map (·.close)))) 2 7)).length : ℚ)) =
          some (40 / 3)
      rw [show obs (window (bfill (ffill (barsGap.map (·.close)))) 2 7) =
        [10, 10, 20] from rfl]
      norm_num
    rw [e0, e1, e2]
  refine ⟨by decide, by decide, hcode, hspec, ?_⟩
  rw [hcode, hspec]
  intro hcon
  have h15 : (15 : ℚ) = 40 / 3 := by
    have := List.cons.inj hcon
    have := List.cons.inj this.2
    have := List.cons.inj this.2
    exact Option.some.inj this.1
  norm_num at h15

/-- Claim C9: calling the windowed retrieval with `limit = 0` returns the
symbol's entire stored series (every matching row, ascending by date), and is
indistinguishable from `limit = None`: the `LIMIT` clause is attached only
when the Python `limit` is truthy. -/
theorem C9_limit_zero_full_series :
    ∀ (store : List StockRow) (sym : String),
      get_symbol_data store sym (some 0) = get_symbol_data store sym none
      ∧ (get_symbol_data store sym (some 0)).Perm
          (store.filter (fun r => decide (r.symbol = upper sym)))
      ∧ List.Sorted dateLe (get_symbol_data store sym (some 0)) := by
  intro store sym
  have he : get_symbol_data store sym (some 0) = get_symbol_data store sym none := by
    unfold get_symbol_data
    simp
  refine ⟨he, ?_, ?_⟩
  · rw [he]; exact get_symbol_data_none_perm store sym
  · rw [he]; exact sorted_sortAsc _

/-- Claim C10: the pipeline stores the symbol upper-cased, and both the
windowed retrieval and the 52-week summary upper-case their symbol argument
before matching, so any two casing variants of a symbol (same upper-case
image) produce identical query results against the same store. -/
theorem C10_symbol_case_insensitive :
    (∀ (store : List StockRow) (s1 s2 : String) (lim : Option ℕ),
        upper s1 = upper s2 → get_symbol_data store s1 lim = get_symbol_data store s2 lim)
    ∧ (∀ (store : List StockRow) (s1 s2 : String),
        upper s1 = upper s2 → get_symbol_summary store s1 = get_symbol_summary store s2)
    ∧ (∀ (sym : String) (bars : List RawBar) (r : PrepRow),
        r ∈ computeMetrics sym bars → r.symbol = upper sym) := by
  refine ⟨?_, ?_, ?_⟩
  · intro store s1 s2 lim h
    unfold get_symbol_data
    rw [h]
  · intro store s1 s2 h
    unfold get_symbol_summary get_symbol_data
    rw [h]
  · intro sym bars r hr
    unfold computeMetrics at hr
    obtain ⟨i, _, rfl⟩ := List.mem_map.mp hr
    rfl

/-- Witness for C10: two casing variants of the same symbol, concrete store. -/
theorem C10_witness :
    get_symbol_data storeCase "abc" none = get_symbol_data storeCase "AbC" none
    ∧ get_symbol_summary storeCase "abc" = get_symbol_summary storeCase "AbC" :=
  ⟨C10_symbol_case_insensitive.1 storeCase "abc" "AbC" none (by decide),
   C10_symbol_case_insensitive.2.1 storeCase "abc" "AbC" (by decide)⟩

end StockDash
